import Mathlib

set_option maxRecDepth 4000

/-!
Shallow embedding of the tokkenAPI service (src/index.js): an Express app
with user registration, login issuing signed bearer tokens, a token-checking
middleware, and token-protected product/user endpoints backed by a MongoDB
store.  The store is modelled as a list of records; the JWT codec is modelled
symbolically: a token is a string carrying the claims and a MAC tag computed
from the server secret, and verification parses the string, checks the tag
and the expiry against the current clock.
-/

namespace TokkenAPI

/-! ### JS truthiness of request-body fields

`if (!name || !email || !password)` in JS treats the empty string as missing;
an absent body field (undefined) is modelled as the empty string, which has
the same truthiness.  For the numeric `price` field, `!price` is true for 0. -/

def strFalsy (s : String) : Bool := s = ""

def numFalsy (n : Int) : Bool := n = 0

/-! ### Digit strings

The token codec embeds the numeric claims (`iat`, `exp`) and the MAC tag in
the token string as decimal digit runs.  `natToChars` renders a `Nat`;
`charsToNat` parses one back. -/

def digitChar (d : Nat) : Char :=
  if d = 0 then '0' else if d = 1 then '1' else if d = 2 then '2'
  else if d = 3 then '3' else if d = 4 then '4' else if d = 5 then '5'
  else if d = 6 then '6' else if d = 7 then '7' else if d = 8 then '8' else '9'

def digitVal (c : Char) : Option Nat :=
  if c = '0' then some 0 else if c = '1' then some 1 else if c = '2' then some 2
  else if c = '3' then some 3 else if c = '4' then some 4 else if c = '5' then some 5
  else if c = '6' then some 6 else if c = '7' then some 7 else if c = '8' then some 8
  else if c = '9' then some 9 else none

def natToChars (n : Nat) : List Char :=
  if _h : n < 10 then [digitChar n]
  else natToChars (n / 10) ++ [digitChar (n % 10)]
termination_by n
decreasing_by
  exact Nat.div_lt_self (by omega) (by omega)

def charsToNatAux : Nat → List Char → Option Nat
  | acc, [] => some acc
  | acc, c :: cs =>
    match digitVal c with
    | some d => charsToNatAux (acc * 10 + d) cs
    | none => none

def charsToNat (l : List Char) : Option Nat :=
  if l.isEmpty then none else charsToNatAux 0 l

/-! ### Splitting and joining on a separator character

`splitCharsOn` mirrors the JS `String.prototype.split` with a single-character
separator (as used by `authHeader.split(' ')` in the middleware): it always
returns at least one piece, and empty pieces are kept. -/

def splitCharsOn (sep : Char) : List Char → List (List Char)
  | [] => [[]]
  | c :: rest =>
    match splitCharsOn sep rest with
    | [] => [[]]
    | h :: t => if c = sep then [] :: h :: t else (c :: h) :: t

def joinCharsOn (sep : Char) : List (List Char) → List Char
  | [] => []
  | [h] => h
  | h :: h2 :: t => h ++ sep :: joinCharsOn sep (h2 :: t)

def jsSplit (sep : Char) (s : String) : List String :=
  (splitCharsOn sep s.toList).map String.mk

/-! ### Token codec (model of `jsonwebtoken`)

`jwt.sign({ email }, SECRET_KEY, { expiresIn: '1h' })` embeds the claims
`{ email, iat, exp }` with `exp = iat + 3600` (seconds) and a signature over
the claims under the secret.  `jwt.verify` recovers the claims when the
signature matches and the current time is before `exp` (jsonwebtoken treats
`now >= exp` as expired), and fails otherwise. -/

structure Claims where
  email : String
  iat : Nat
  exp : Nat
deriving Repr, DecidableEq

/-- Model of the HMAC signature: a deterministic tag over the secret and the
claims.  Tampering with any claim or signing under a different secret is
detected exactly when the recomputed tag differs. -/
def macTag (secret email : String) (iat exp : Nat) : Nat :=
  (secret.toList.foldl (fun h c => h * 131 + c.toNat) 7) * 1000003
    + (email.toList.foldl (fun h c => h * 131 + c.toNat) 7) * 1009
    + iat * 31 + exp

/-- `jwt.sign({ email: user.email }, SECRET_KEY, { expiresIn: '1h' })`:
issue a token at clock time `now` whose claims are
`{ email, iat := now, exp := now + 3600 }`. -/
def signToken (secret : String) (now : Nat) (email : String) : String :=
  String.mk (natToChars now ++ '|' :: natToChars (now + 3600)
    ++ '|' :: natToChars (macTag secret email now (now + 3600))
    ++ '|' :: email.toList)

def parseTok (parts : List (List Char)) : Option (Nat × Nat × Nat × String) :=
  match parts with
  | iatCs :: expCs :: sigCs :: r :: rs =>
    match charsToNat iatCs, charsToNat expCs, charsToNat sigCs with
    | some iat, some exp, some sig =>
      some (iat, exp, sig, String.mk (joinCharsOn '|' (r :: rs)))
    | _, _, _ => none
  | _ => none

/-- `jwt.verify(token, SECRET_KEY, cb)`: succeeds with the decoded claims iff
the token is structurally well-formed, its tag matches the claims under
`secret`, and the clock has not reached `exp`. -/
def jwtVerify (secret : String) (now : Nat) (tok : String) : Option Claims :=
  match parseTok (splitCharsOn '|' tok.toList) with
  | some (iat, exp, sig, email) =>
    if sig = macTag secret email iat exp ∧ now < exp then
      some ⟨email, iat, exp⟩
    else none
  | none => none

/-- `const SECRET_KEY = process.env.JWT_SECRET || 'your_secret_key';`
(the source default). -/
def SECRET_KEY : String := "your_secret_key"

/-! ### Data model (mongoose schemas) -/

structure UserRec where
  name : String
  email : String
  password : String
deriving Repr, DecidableEq

structure Product where
  name : String
  price : Int
  addedBy : String
deriving Repr, DecidableEq

/-- A user record as returned by `User.find().select('-password')`:
the password field is excluded from the projection. -/
structure PublicUser where
  name : String
  email : String
deriving Repr, DecidableEq

/-- `User.findOne({ email })` over the store. -/
def findByEmail (store : List UserRec) (e : String) : Option UserRec :=
  store.find? (fun u => u.email == e)

/-- `User.findOne({ email, password })`: a single conjunctive exact-match
query — a record is returned only when both fields match. -/
def findByEmailPassword (store : List UserRec) (e p : String) : Option UserRec :=
  store.find? (fun u => u.email == e && u.password == p)

/-! ### POST /register -/

inductive RegisterResult where
  | badRequest (message : String)
  | created (message : String)
  | serverError (message : String)
deriving Repr, DecidableEq

def RegisterResult.status : RegisterResult → Nat
  | .badRequest _ => 400
  | .created _ => 201
  | .serverError _ => 500

/-- The `/register` handler, with the store's concurrency exposed:
`store0` is the Credential Store state read by the `User.findOne({ email })`
pre-check, and `store1` is the state at `newUser.save()` time (the two differ
exactly when a concurrent request wrote to the store in between).  The
store's unique index on `email` makes `save` throw on a duplicate, and any
thrown error lands in the catch block, which answers
500 "Internal server error". -/
def registerRaced (name email password : String) (store0 store1 : List UserRec) :
    RegisterResult × List UserRec :=
  if strFalsy name || strFalsy email || strFalsy password then
    (.badRequest "Name, email, and password are required", store1)
  else
    match findByEmail store0 email with
    | some _ => (.badRequest "User already exists", store1)
    | none =>
      if (findByEmail store1 email).isSome then
        (.serverError "Internal server error", store1)
      else
        (.created "User registered successfully", store1 ++ [⟨name, email, password⟩])

/-- The `/register` handler in the sequential (no interleaving) case. -/
def register (name email password : String) (store : List UserRec) :
    RegisterResult × List UserRec :=
  registerRaced name email password store store

/-! ### POST /login -/

inductive LoginResult where
  | badRequest (message : String)
  | unauthorized (message : String)
  | ok (token : String)
deriving Repr, DecidableEq

def LoginResult.status : LoginResult → Nat
  | .badRequest _ => 400
  | .unauthorized _ => 401
  | .ok _ => 200

/-- The `/login` handler at clock time `now`. -/
def login (email password : String) (store : List UserRec) (now : Nat) : LoginResult :=
  if strFalsy email || strFalsy password then
    .badRequest "Email and password are required"
  else
    match findByEmailPassword store email password with
    | none => .unauthorized "Invalid email or password"
    | some u => .ok (signToken SECRET_KEY now u.email)

/-! ### authenticateToken middleware -/

inductive AuthResult where
  | tokenRequired
  | invalidToken
  | authorized (user : Claims)
deriving Repr, DecidableEq

/-- `const token = authHeader.split(' ')[1]`: the second space-separated part
of the raw header value; `none` models the JS `undefined` when the header has
no second part. -/
def extractToken (h : String) : Option String :=
  (jsSplit ' ' h)[1]?

/-- The `authenticateToken` middleware.  `authHeader` is
`req.headers['authorization']` (`none` when absent).  `!authHeader` is also
true for an empty-string header, so both yield 401 "Token required".
`jwt.verify` of an `undefined` token (header without a second part) fails,
as does verification of a malformed, wrongly-signed, or expired token:
all of these yield 403 "Invalid token". -/
def authenticateToken (authHeader : Option String) (now : Nat) : AuthResult :=
  match authHeader with
  | none => .tokenRequired
  | some h =>
    if strFalsy h then .tokenRequired
    else
      match extractToken h with
      | none => .invalidToken
      | some tok =>
        match jwtVerify SECRET_KEY now tok with
        | none => .invalidToken
        | some user => .authorized user

/-! ### Protected endpoints -/

inductive GateOutcome (α : Type) where
  | rejected (status : Nat) (message : String)
  | handled (result : α)
deriving Repr, DecidableEq

/-- A protected route: the `authenticateToken` middleware runs first and, on
rejection, produces its terminal response without ever invoking the handler;
on success the handler runs with the verified claims attached as `req.user`. -/
def runProtected {α : Type} (authHeader : Option String) (now : Nat)
    (handler : Claims → α) : GateOutcome α :=
  match authenticateToken authHeader now with
  | .tokenRequired => .rejected 401 "Token required"
  | .invalidToken => .rejected 403 "Invalid token"
  | .authorized user => .handled (handler user)

/-- `GET /users`: `User.find().select('-password')`, i.e. every stored record
projected to its name and email, with status 200. -/
def getUsers (authHeader : Option String) (now : Nat) (store : List UserRec) :
    GateOutcome (Nat × List PublicUser) :=
  runProtected authHeader now
    (fun _ => (200, store.map (fun u => ⟨u.name, u.email⟩)))

/-- `POST /product`: after the middleware, `if (!name || !price)` rejects with
400; otherwise a product is saved with `addedBy` taken from the verified
claims.  Returns the response and the product store after the request. -/
def postProduct (authHeader : Option String) (now : Nat) (name : String)
    (price : Int) (products : List Product) :
    GateOutcome (Nat × String) × List Product :=
  match authenticateToken authHeader now with
  | .tokenRequired => (.rejected 401 "Token required", products)
  | .invalidToken => (.rejected 403 "Invalid token", products)
  | .authorized user =>
    if strFalsy name || numFalsy price then
      (.handled (400, "Product name and price are required"), products)
    else
      (.handled (201, "Product added successfully"), products ++ [⟨name, price, user.email⟩])

/-! ### Lemmas: digit strings -/

theorem digitVal_digitChar (d : Nat) (h : d < 10) : digitVal (digitChar d) = some d := by
  interval_cases d <;> rfl

theorem digitChar_ne_bar (d : Nat) : digitChar d ≠ '|' := by
  unfold digitChar
  repeat' split
  all_goals decide

theorem digitChar_ne_space (d : Nat) : digitChar d ≠ ' ' := by
  unfold digitChar
  repeat' split
  all_goals decide

theorem natToChars_ne_nil (n : Nat) : natToChars n ≠ [] := by
  rw [natToChars]
  by_cases h : n < 10
  · rw [dif_pos h]; simp
  · rw [dif_neg h]; simp

theorem bar_not_mem_natToChars (n : Nat) : '|' ∉ natToChars n := by
  induction n using Nat.strong_induction_on with
  | _ n ih =>
    rw [natToChars]
    by_cases h : n < 10
    · rw [dif_pos h]
      simp only [List.mem_singleton]
      exact fun hc => digitChar_ne_bar n hc.symm
    · rw [dif_neg h]
      intro hmem
      rcases List.mem_append.mp hmem with hm | hm
      · exact ih (n / 10) (Nat.div_lt_self (by omega) (by omega)) hm
      · simp only [List.mem_singleton] at hm
        exact digitChar_ne_bar _ hm.symm

theorem space_not_mem_natToChars (n : Nat) : ' ' ∉ natToChars n := by
  induction n using Nat.strong_induction_on with
  | _ n ih =>
    rw [natToChars]
    by_cases h : n < 10
    · rw [dif_pos h]
      simp only [List.mem_singleton]
      exact fun hc => digitChar_ne_space n hc.symm
    · rw [dif_neg h]
      intro hmem
      rcases List.mem_append.mp hmem with hm | hm
      · exact ih (n / 10) (Nat.div_lt_self (by omega) (by omega)) hm
      · simp only [List.mem_singleton] at hm
        exact digitChar_ne_space _ hm.symm

theorem charsToNatAux_append (acc : Nat) (l₁ l₂ : List Char) :
    charsToNatAux acc (l₁ ++ l₂)
      = (charsToNatAux acc l₁).bind (fun v => charsToNatAux v l₂) := by
  induction l₁ generalizing acc with
  | nil => simp [charsToNatAux]
  | cons c cs ih =>
    cases hd : digitVal c with
    | some d => simp [charsToNatAux, hd, ih]
    | none => simp [charsToNatAux, hd]

theorem charsToNatAux_natToChars (n : Nat) :
    ∀ acc : Nat, charsToNatAux acc (natToChars n)
      = some (acc * 10 ^ (natToChars n).length + n) := by
  induction n using Nat.strong_induction_on with
  | _ n ih =>
    intro acc
    by_cases h : n < 10
    · rw [natToChars, dif_pos h]
      simp [charsToNatAux, digitVal_digitChar n h]
    · rw [natToChars, dif_neg h]
      rw [charsToNatAux_append, ih (n / 10) (Nat.div_lt_self (by omega) (by omega)) acc]
      have hm : n % 10 < 10 := Nat.mod_lt _ (by omega)
      simp only [Option.some_bind, charsToNatAux, digitVal_digitChar (n % 10) hm,
        List.length_append, List.length_cons, List.length_nil, Nat.zero_add, pow_succ]
      have key : ∀ B : Nat, (acc * B + n / 10) * 10 + n % 10 = acc * (B * 10) + n := by
        intro B
        have h2 : n / 10 * 10 + n % 10 = n := by omega
        calc (acc * B + n / 10) * 10 + n % 10
            = acc * (B * 10) + (n / 10 * 10 + n % 10) := by ring
          _ = acc * (B * 10) + n := by rw [h2]
      exact congrArg some (key _)

theorem charsToNat_natToChars (n : Nat) : charsToNat (natToChars n) = some n := by
  have hne : (natToChars n).isEmpty = false := by
    cases hl : natToChars n with
    | nil => exact absurd hl (natToChars_ne_nil n)
    | cons a l => rfl
  unfold charsToNat
  rw [hne]
  simp [charsToNatAux_natToChars n 0]

/-! ### Lemmas: split and join -/

theorem splitCharsOn_ne_nil (sep : Char) (l : List Char) : splitCharsOn sep l ≠ [] := by
  cases l with
  | nil => simp [splitCharsOn]
  | cons c rest =>
    rw [splitCharsOn]
    cases splitCharsOn sep rest with
    | nil => simp
    | cons h t =>
      by_cases hc : c = sep
      · simp [hc]
      · simp [hc]

theorem splitCharsOn_of_not_mem (sep : Char) (l : List Char) (h : sep ∉ l) :
    splitCharsOn sep l = [l] := by
  induction l with
  | nil => rfl
  | cons c rest ih =>
    have hc : c ≠ sep := fun hc => h (hc ▸ List.mem_cons_self c rest)
    have hrest : sep ∉ rest := fun hm => h (List.mem_cons_of_mem c hm)
    rw [splitCharsOn, ih hrest]
    simp [hc]

theorem splitCharsOn_append (sep : Char) (a b : List Char) (h : sep ∉ a) :
    splitCharsOn sep (a ++ sep :: b) = a :: splitCharsOn sep b := by
  induction a with
  | nil =>
    rw [List.nil_append, splitCharsOn]
    cases hb : splitCharsOn sep b with
    | nil => exact absurd hb (splitCharsOn_ne_nil sep b)
    | cons hd tl => simp
  | cons c a' ih =>
    have hc : c ≠ sep := fun hc => h (hc ▸ List.mem_cons_self c a')
    have ha' : sep ∉ a' := fun hm => h (List.mem_cons_of_mem c hm)
    rw [List.cons_append, splitCharsOn, ih ha']
    simp [hc]

theorem joinCharsOn_splitCharsOn (sep : Char) (l : List Char) :
    joinCharsOn sep (splitCharsOn sep l) = l := by
  induction l with
  | nil => rfl
  | cons c rest ih =>
    rw [splitCharsOn]
    cases hs : splitCharsOn sep rest with
    | nil => exact absurd hs (splitCharsOn_ne_nil sep rest)
    | cons h t =>
      rw [hs] at ih
      by_cases hc : c = sep
      · subst hc
        simp only [if_pos rfl]
        simp only [joinCharsOn] at ih ⊢
        rw [ih]
        rfl
      · simp only [if_neg hc]
        cases t with
        | nil =>
          simp only [joinCharsOn] at ih ⊢
          rw [ih]
        | cons h2 t' =>
          simp only [joinCharsOn] at ih ⊢
          rw [List.cons_append, ih]

/-! ### Lemmas: token codec -/

theorem mk_toList (s : String) : String.mk s.toList = s := rfl

theorem splitCharsOn_signToken (secret email : String) (iat : Nat) :
    splitCharsOn '|' (signToken secret iat email).toList
      = natToChars iat :: natToChars (iat + 3600)
        :: natToChars (macTag secret email iat (iat + 3600))
        :: splitCharsOn '|' email.toList := by
  have h0 : (signToken secret iat email).toList
      = natToChars iat ++ '|' :: (natToChars (iat + 3600)
        ++ '|' :: (natToChars (macTag secret email iat (iat + 3600))
        ++ '|' :: email.toList)) := by
    calc (signToken secret iat email).toList
        = natToChars iat ++ '|' :: natToChars (iat + 3600)
          ++ '|' :: natToChars (macTag secret email iat (iat + 3600))
          ++ '|' :: email.toList := rfl
      _ = _ := by simp [List.append_assoc]
  rw [h0, splitCharsOn_append '|' _ _ (bar_not_mem_natToChars iat),
    splitCharsOn_append '|' _ _ (bar_not_mem_natToChars (iat + 3600)),
    splitCharsOn_append '|' _ _ (bar_not_mem_natToChars _)]

theorem parseTok_signToken (secret email : String) (iat : Nat) :
    parseTok (splitCharsOn '|' (signToken secret iat email).toList)
      = some (iat, iat + 3600, macTag secret email iat (iat + 3600), email) := by
  rw [splitCharsOn_signToken]
  cases hs : splitCharsOn '|' email.toList with
  | nil => exact absurd hs (splitCharsOn_ne_nil '|' email.toList)
  | cons r rs =>
    have hjoin : String.mk (joinCharsOn '|' (r :: rs)) = email := by
      rw [← hs, joinCharsOn_splitCharsOn]
      exact mk_toList email
    simp [parseTok, charsToNat_natToChars, hjoin, mk_toList]

/-- A freshly issued token verifies before its expiry and yields exactly the
claims that were signed. -/
theorem jwtVerify_signToken_valid (secret email : String) (iat now : Nat)
    (h : now < iat + 3600) :
    jwtVerify secret now (signToken secret iat email)
      = some ⟨email, iat, iat + 3600⟩ := by
  unfold jwtVerify
  rw [parseTok_signToken]
  simp [h]

/-- A token whose expiry has been reached fails verification even though its
signature is the correct tag for its claims under the server secret. -/
theorem jwtVerify_signToken_expired (secret email : String) (iat now : Nat)
    (h : iat + 3600 ≤ now) :
    jwtVerify secret now (signToken secret iat email) = none := by
  unfold jwtVerify
  rw [parseTok_signToken]
  simp [h]

theorem signToken_toList (secret email : String) (iat : Nat) :
    (signToken secret iat email).toList
      = natToChars iat ++ '|' :: (natToChars (iat + 3600)
        ++ '|' :: (natToChars (macTag secret email iat (iat + 3600))
        ++ '|' :: email.toList)) := by
  calc (signToken secret iat email).toList
      = natToChars iat ++ '|' :: natToChars (iat + 3600)
        ++ '|' :: natToChars (macTag secret email iat (iat + 3600))
        ++ '|' :: email.toList := rfl
    _ = _ := by simp [List.append_assoc]

theorem space_not_mem_signToken (secret email : String) (iat : Nat)
    (he : ' ' ∉ email.toList) : ' ' ∉ (signToken secret iat email).toList := by
  intro hm
  rw [signToken_toList] at hm
  simp only [List.mem_append, List.mem_cons] at hm
  rcases hm with h | h | h | h | h | h | h
  · exact space_not_mem_natToChars _ h
  · exact absurd h (by decide)
  · exact space_not_mem_natToChars _ h
  · exact absurd h (by decide)
  · exact space_not_mem_natToChars _ h
  · exact absurd h (by decide)
  · exact he h

/-! ### Lemmas: credential store and handlers -/

theorem findByEmailPassword_append_fresh (name email password : String)
    (store : List UserRec) (hfresh : findByEmail store email = none) :
    findByEmailPassword (store ++ [⟨name, email, password⟩]) email password
      = some ⟨name, email, password⟩ := by
  have hnone : store.find? (fun u => u.email == email && u.password == password) = none := by
    apply List.find?_eq_none.mpr
    intro u hu hb
    have := List.find?_eq_none.mp hfresh u hu
    simp only [Bool.and_eq_true, beq_iff_eq] at hb
    simp [hb.1] at this
  unfold findByEmailPassword
  rw [List.find?_append, hnone, Option.none_or]
  simp

theorem register_fresh (name email password : String) (store : List UserRec)
    (hn : name ≠ "") (he : email ≠ "") (hp : password ≠ "")
    (hfresh : findByEmail store email = none) :
    register name email password store
      = (.created "User registered successfully", store ++ [⟨name, email, password⟩]) := by
  unfold register registerRaced
  simp [strFalsy, hn, he, hp, hfresh]

theorem register_dup (name email password : String) (store : List UserRec)
    (hn : name ≠ "") (he : email ≠ "") (hp : password ≠ "")
    (hsome : (findByEmail store email).isSome) :
    register name email password store = (.badRequest "User already exists", store) := by
  obtain ⟨u, hu⟩ := Option.isSome_iff_exists.mp hsome
  unfold register registerRaced
  simp [strFalsy, hn, he, hp, hu]

theorem login_found (email password : String) (store : List UserRec) (now : Nat)
    (u : UserRec) (he : email ≠ "") (hp : password ≠ "")
    (hfind : findByEmailPassword store email password = some u) :
    login email password store now = .ok (signToken SECRET_KEY now u.email) := by
  unfold login
  simp [strFalsy, he, hp, hfind]

theorem login_notfound (email password : String) (store : List UserRec) (now : Nat)
    (he : email ≠ "") (hp : password ≠ "")
    (hfind : findByEmailPassword store email password = none) :
    login email password store now = .unauthorized "Invalid email or password" := by
  unfold login
  simp [strFalsy, he, hp, hfind]

theorem extractToken_scheme_token (scheme t : String)
    (hs : ' ' ∉ scheme.toList) (ht : ' ' ∉ t.toList) :
    extractToken (scheme ++ " " ++ t) = some t := by
  have hlist : (scheme ++ " " ++ t).toList = scheme.toList ++ ' ' :: t.toList := by
    calc (scheme ++ " " ++ t).toList
        = (scheme.toList ++ [' ']) ++ t.toList := rfl
      _ = scheme.toList ++ ' ' :: t.toList := by simp
  unfold extractToken jsSplit
  rw [hlist, splitCharsOn_append ' ' _ _ hs, splitCharsOn_of_not_mem ' ' _ ht]
  simp [mk_toList]

/-- The middleware accepts a header of the form `scheme token` whenever the
second space-separated part is a validly signed, unexpired token: the scheme
word itself is never inspected. -/
theorem authenticateToken_scheme_token (scheme email : String) (iat now : Nat)
    (hs : ' ' ∉ scheme.toList) (he : ' ' ∉ email.toList)
    (hnow : now < iat + 3600) :
    authenticateToken (some (scheme ++ " " ++ signToken SECRET_KEY iat email)) now
      = .authorized ⟨email, iat, iat + 3600⟩ := by
  have hex := extractToken_scheme_token scheme (signToken SECRET_KEY iat email) hs
    (space_not_mem_signToken SECRET_KEY email iat he)
  have hne : (scheme ++ " " ++ signToken SECRET_KEY iat email) ≠ "" := by
    intro hh
    have h0 : extractToken "" = none := rfl
    rw [hh, h0] at hex
    simp at hex
  simp [authenticateToken, strFalsy, hne, hex,
    jwtVerify_signToken_valid SECRET_KEY email iat now hnow]

/-! ### Claim theorems -/

/-- C1 (counterexample): the claim says a Register whose pre-check finds no
record but whose insert is rejected by the store's uniqueness constraint
returns the 400 "User already exists" conflict error.  On the code it does
not: with an empty pre-check store and a concurrent duplicate present at save
time, the thrown duplicate-key error lands in the catch block and the
response is the generic 500 "Internal server error". -/
theorem register_race_returns_conflict_cex :
    registerRaced "Bob" "a@x.com" "pw2" [] [⟨"Ann", "a@x.com", "pw1"⟩]
      = (.serverError "Internal server error", [⟨"Ann", "a@x.com", "pw1"⟩])
    ∧ RegisterResult.serverError "Internal server error"
        ≠ RegisterResult.badRequest "User already exists"
    ∧ (RegisterResult.serverError "Internal server error").status = 500 := by
  refine ⟨by decide, by decide, rfl⟩

/-- C1 (amended): if the Register pre-check finds no existing record but the
subsequent insert fails on the Credential Store's uniqueness constraint on
email (a concurrent duplicate), the Register operation returns the generic
500 "Internal server error" server fault, not the 400 "already exists"
client error. -/
theorem register_race_returns_server_fault (name email password : String)
    (store0 store1 : List UserRec)
    (hn : name ≠ "") (he : email ≠ "") (hp : password ≠ "")
    (hpre : findByEmail store0 email = none)
    (hdup : (findByEmail store1 email).isSome) :
    registerRaced name email password store0 store1
      = (.serverError "Internal server error", store1) := by
  unfold registerRaced
  simp [strFalsy, hn, he, hp, hpre, hdup]

/-- C1 (witness for the amended claim). -/
theorem register_race_returns_server_fault_witness :
    registerRaced "Bob" "a@x.com" "pw2" [] [⟨"Ann", "a@x.com", "pw1"⟩]
      = (.serverError "Internal server error", [⟨"Ann", "a@x.com", "pw1"⟩]) :=
  register_race_returns_server_fault "Bob" "a@x.com" "pw2" []
    [⟨"Ann", "a@x.com", "pw1"⟩] (by decide) (by decide) (by decide) rfl (by decide)

/-- C4: registering a fresh email with non-empty fields succeeds with 201 and
appends exactly the supplied record; any registration against an email that
already has a record fails with 400 "User already exists" regardless of the
(non-empty) name and password supplied, leaving the store unchanged. -/
theorem register_unique_email (name email password : String) (store : List UserRec)
    (hn : name ≠ "") (he : email ≠ "") (hp : password ≠ "") :
    (findByEmail store email = none →
      register name email password store
        = (.created "User registered successfully", store ++ [⟨name, email, password⟩])
      ∧ (register name email password store).1.status = 201)
    ∧ (∀ name' password', name' ≠ "" → password' ≠ "" →
        (findByEmail store email).isSome →
        register name' email password' store = (.badRequest "User already exists", store)
        ∧ (register name' email password' store).1.status = 400) := by
  constructor
  · intro hfresh
    rw [register_fresh name email password store hn he hp hfresh]
    exact ⟨rfl, rfl⟩
  · intro name' password' hn' hp' hsome
    rw [register_dup name' email password' store hn' he hp' hsome]
    exact ⟨rfl, rfl⟩

/-- C4 (witness). -/
theorem register_unique_email_witness :
    register "Ann" "a@x.com" "pw1" []
      = (.created "User registered successfully", [⟨"Ann", "a@x.com", "pw1"⟩])
    ∧ register "Bob" "a@x.com" "pw2" [⟨"Ann", "a@x.com", "pw1"⟩]
      = (.badRequest "User already exists", [⟨"Ann", "a@x.com", "pw1"⟩]) :=
  ⟨((register_unique_email "Ann" "a@x.com" "pw1" []
      (by decide) (by decide) (by decide)).1 rfl).1,
   ((register_unique_email "Bob" "a@x.com" "pw2" [⟨"Ann", "a@x.com", "pw1"⟩]
      (by decide) (by decide) (by decide)).2 "Bob" "pw2"
      (by decide) (by decide) (by decide)).1⟩

/-- C2: for every triple successfully stored by Register, Login with that
email and password immediately afterwards succeeds, and verifying the
returned token recovers the same email. -/
theorem register_login_verify_roundtrip (name email password : String)
    (store : List UserRec) (now : Nat)
    (hn : name ≠ "") (he : email ≠ "") (hp : password ≠ "")
    (hfresh : findByEmail store email = none) :
    (register name email password store).1 = .created "User registered successfully"
    ∧ ∃ tok claims,
        login email password (register name email password store).2 now = .ok tok
        ∧ jwtVerify SECRET_KEY now tok = some claims
        ∧ claims.email = email := by
  rw [register_fresh name email password store hn he hp hfresh]
  have hfind := findByEmailPassword_append_fresh name email password store hfresh
  have hl := login_found email password (store ++ [⟨name, email, password⟩]) now
    ⟨name, email, password⟩ he hp hfind
  have hproj : (⟨name, email, password⟩ : UserRec).email = email := rfl
  rw [hproj] at hl
  refine ⟨rfl, signToken SECRET_KEY now email, ⟨email, now, now + 3600⟩, hl, ?_, rfl⟩
  exact jwtVerify_signToken_valid SECRET_KEY email now now (by omega)

/-- C2 (witness). -/
theorem register_login_verify_roundtrip_witness :
    (register "Ann" "a@x.com" "pw1" []).1 = .created "User registered successfully"
    ∧ ∃ tok claims,
        login "a@x.com" "pw1" (register "Ann" "a@x.com" "pw1" []).2 0 = .ok tok
        ∧ jwtVerify SECRET_KEY 0 tok = some claims
        ∧ claims.email = "a@x.com" :=
  register_login_verify_roundtrip "Ann" "a@x.com" "pw1" [] 0
    (by decide) (by decide) (by decide) rfl

/-- C3: a Login whose email matches a stored record but whose password does
not, and a Login whose email matches no stored record, produce identical
failure results: the same 401 status and the same
"Invalid email or password" message. -/
theorem login_failures_indistinguishable (store : List UserRec)
    (e1 p1 e2 p2 : String) (now : Nat)
    (he1 : e1 ≠ "") (hp1 : p1 ≠ "") (he2 : e2 ≠ "") (hp2 : p2 ≠ "")
    (_hexists : ∃ u ∈ store, u.email = e1)
    (hwrong : ∀ u ∈ store, u.email = e1 → u.password ≠ p1)
    (hunknown : ∀ u ∈ store, u.email ≠ e2) :
    login e1 p1 store now = login e2 p2 store now
    ∧ login e1 p1 store now = .unauthorized "Invalid email or password"
    ∧ (login e1 p1 store now).status = 401 := by
  have h1 : findByEmailPassword store e1 p1 = none := by
    apply List.find?_eq_none.mpr
    intro u hu hb
    simp only [Bool.and_eq_true, beq_iff_eq] at hb
    exact hwrong u hu hb.1 hb.2
  have h2 : findByEmailPassword store e2 p2 = none := by
    apply List.find?_eq_none.mpr
    intro u hu hb
    simp only [Bool.and_eq_true, beq_iff_eq] at hb
    exact hunknown u hu hb.1
  rw [login_notfound e1 p1 store now he1 hp1 h1,
    login_notfound e2 p2 store now he2 hp2 h2]
  exact ⟨rfl, rfl, rfl⟩

/-- C3 (witness). -/
theorem login_failures_indistinguishable_witness :
    login "a@x.com" "wrong" [⟨"Ann", "a@x.com", "pw1"⟩] 0
      = login "b@y.com" "pw1" [⟨"Ann", "a@x.com", "pw1"⟩] 0
    ∧ login "a@x.com" "wrong" [⟨"Ann", "a@x.com", "pw1"⟩] 0
      = .unauthorized "Invalid email or password"
    ∧ (login "a@x.com" "wrong" [⟨"Ann", "a@x.com", "pw1"⟩] 0).status = 401 :=
  login_failures_indistinguishable [⟨"Ann", "a@x.com", "pw1"⟩]
    "a@x.com" "wrong" "b@y.com" "pw1" 0
    (by decide) (by decide) (by decide) (by decide)
    ⟨⟨"Ann", "a@x.com", "pw1"⟩, by simp, rfl⟩
    (by intro u hu h1 h2; simp at hu; rw [hu] at h2; exact absurd h2 (by decide))
    (by intro u hu; simp at hu; rw [hu]; decide)

/-- C5: Login with non-empty email and password succeeds exactly when some
stored record matches both the supplied email and the supplied password —
a single conjunctive exact-match lookup. -/
theorem login_success_iff_matching_record (store : List UserRec)
    (e p : String) (now : Nat) (he : e ≠ "") (hp : p ≠ "") :
    (∃ tok, login e p store now = .ok tok)
      ↔ ∃ u ∈ store, u.email = e ∧ u.password = p := by
  cases hfind : findByEmailPassword store e p with
  | none =>
    constructor
    · rintro ⟨tok, htok⟩
      rw [login_notfound e p store now he hp hfind] at htok
      exact absurd htok (by simp)
    · rintro ⟨u, hu, hue, hup⟩
      have hnone := List.find?_eq_none.mp hfind u hu
      simp [hue, hup] at hnone
  | some u =>
    constructor
    · intro _
      have hmem := List.mem_of_find?_eq_some hfind
      have hpred := List.find?_some hfind
      simp only [Bool.and_eq_true, beq_iff_eq] at hpred
      exact ⟨u, hmem, hpred.1, hpred.2⟩
    · intro _
      exact ⟨signToken SECRET_KEY now u.email,
        login_found e p store now u he hp hfind⟩

/-- C5 (witness). -/
theorem login_success_iff_matching_record_witness :
    ((∃ tok, login "a@x.com" "pw1" [⟨"Ann", "a@x.com", "pw1"⟩] 0 = .ok tok)
      ↔ ∃ u ∈ [(⟨"Ann", "a@x.com", "pw1"⟩ : UserRec)],
          u.email = "a@x.com" ∧ u.password = "pw1") :=
  login_success_iff_matching_record [⟨"Ann", "a@x.com", "pw1"⟩]
    "a@x.com" "pw1" 0 (by decide) (by decide)

/-- C6: a protected endpoint with no Authorization header rejects with
401 "Token required"; with a header whose extracted token fails verification
it rejects with the distinct 403 "Invalid token"; in both cases the result is
a rejection, so the protected handler is never invoked. -/
theorem access_guard_outcomes {α : Type} (now : Nat) (handler : Claims → α) :
    (runProtected none now handler = .rejected 401 "Token required"
      ∧ ∀ r, runProtected none now handler ≠ .handled r)
    ∧ (∀ h tok, extractToken h = some tok → jwtVerify SECRET_KEY now tok = none →
        runProtected (some h) now handler = .rejected 403 "Invalid token"
        ∧ ∀ r, runProtected (some h) now handler ≠ .handled r)
    ∧ (GateOutcome.rejected 401 "Token required" : GateOutcome α)
        ≠ .rejected 403 "Invalid token" := by
  refine ⟨⟨rfl, by simp [runProtected, authenticateToken]⟩, ?_, by simp⟩
  intro h tok htok hver
  have hne : h ≠ "" := by
    intro hh
    have h0 : extractToken "" = none := rfl
    rw [hh, h0] at htok
    simp at htok
  have hres : runProtected (some h) now handler = .rejected 403 "Invalid token" := by
    simp [runProtected, authenticateToken, strFalsy, hne, htok, hver]
  exact ⟨hres, by rw [hres]; simp⟩

/-- C6 (witness). -/
theorem access_guard_outcomes_witness :
    runProtected none 0 (fun c => c.email) = .rejected 401 "Token required"
    ∧ runProtected (some "Bearer nonsense") 0 (fun c => c.email)
        = .rejected 403 "Invalid token" :=
  ⟨(access_guard_outcomes 0 (fun c => c.email)).1.1,
   ((access_guard_outcomes 0 (fun c => c.email)).2.1 "Bearer nonsense" "nonsense"
      rfl (by decide)).1⟩

/-- C7: a token issued by a successful Login verifies at issuance time (its
signature is valid under the server secret) but fails verification once the
clock reaches its expiry, one hour after issuance. -/
theorem token_expiry_enforced (email password : String) (store : List UserRec)
    (iat now : Nat) (tok : String)
    (hok : login email password store iat = .ok tok)
    (hexp : iat + 3600 ≤ now) :
    jwtVerify SECRET_KEY now tok = none
    ∧ (jwtVerify SECRET_KEY iat tok).isSome := by
  unfold login at hok
  split at hok
  · exact absurd hok (by simp)
  · split at hok
    · exact absurd hok (by simp)
    · rename_i u _
      have htok : tok = signToken SECRET_KEY iat u.email := by
        injection hok with h
        exact h.symm
      subst htok
      constructor
      · exact jwtVerify_signToken_expired SECRET_KEY u.email iat now hexp
      · rw [jwtVerify_signToken_valid SECRET_KEY u.email iat iat (by omega)]
        rfl

/-- C7 (witness). -/
theorem token_expiry_enforced_witness :
    jwtVerify SECRET_KEY 3600 (signToken SECRET_KEY 0 "a@x.com") = none
    ∧ (jwtVerify SECRET_KEY 0 (signToken SECRET_KEY 0 "a@x.com")).isSome :=
  token_expiry_enforced "a@x.com" "pw1" [⟨"Ann", "a@x.com", "pw1"⟩] 0 3600
    (signToken SECRET_KEY 0 "a@x.com") rfl (by omega)

/-- C8: every authenticated GET /users request answers 200 with one entry
per stored user record, each projected to its name and email only — the
password field is excluded from the response. -/
theorem getUsers_returns_all_sans_password (authHeader : Option String)
    (now : Nat) (store : List UserRec) (claims : Claims)
    (hauth : authenticateToken authHeader now = .authorized claims) :
    getUsers authHeader now store
      = .handled (200, store.map (fun u => ⟨u.name, u.email⟩))
    ∧ (store.map (fun u => (⟨u.name, u.email⟩ : PublicUser))).length
        = store.length := by
  constructor
  · simp [getUsers, runProtected, hauth]
  · exact List.length_map store _

/-- C8 (witness). -/
theorem getUsers_returns_all_sans_password_witness :
    getUsers (some ("Bearer " ++ signToken SECRET_KEY 0 "a@x.com")) 0
        [⟨"Ann", "a@x.com", "pw1"⟩]
      = .handled (200, [⟨"Ann", "a@x.com"⟩])
    ∧ ([(⟨"Ann", "a@x.com", "pw1"⟩ : UserRec)].map
        (fun u => (⟨u.name, u.email⟩ : PublicUser))).length
      = [(⟨"Ann", "a@x.com", "pw1"⟩ : UserRec)].length :=
  getUsers_returns_all_sans_password
    (some ("Bearer " ++ signToken SECRET_KEY 0 "a@x.com")) 0
    [⟨"Ann", "a@x.com", "pw1"⟩] ⟨"a@x.com", 0, 3600⟩
    (authenticateToken_scheme_token "Bearer" "a@x.com" 0 0
      (by decide) (by decide) (by omega))

/-- C9: an authenticated POST /product whose body has a non-empty name and a
price equal to 0 is rejected with 400 "Product name and price are required"
and no product record is created: the `!price` presence check treats the
number 0 as a missing field. -/
theorem postProduct_zero_price_rejected (authHeader : Option String)
    (now : Nat) (name : String) (products : List Product) (claims : Claims)
    (hauth : authenticateToken authHeader now = .authorized claims)
    (_hn : name ≠ "") :
    postProduct authHeader now name 0 products
      = (.handled (400, "Product name and price are required"), products) := by
  simp [postProduct, hauth, numFalsy]

/-- C9 (witness). -/
theorem postProduct_zero_price_rejected_witness :
    postProduct (some ("Bearer " ++ signToken SECRET_KEY 0 "a@x.com")) 0
        "Widget" 0 []
      = (.handled (400, "Product name and price are required"), []) :=
  postProduct_zero_price_rejected
    (some ("Bearer " ++ signToken SECRET_KEY 0 "a@x.com")) 0 "Widget" []
    ⟨"a@x.com", 0, 3600⟩
    (authenticateToken_scheme_token "Bearer" "a@x.com" 0 0
      (by decide) (by decide) (by omega))
    (by decide)

/-- C10: the Access Guard never checks the scheme word of the Authorization
header: any header of the form `scheme token` whose second space-separated
part is a validly signed unexpired token is accepted and the protected
handler runs, whatever the first word is. -/
theorem access_guard_ignores_scheme {α : Type} (scheme email : String)
    (iat now : Nat) (handler : Claims → α)
    (hs : ' ' ∉ scheme.toList) (he : ' ' ∉ email.toList)
    (hnow : now < iat + 3600) :
    runProtected (some (scheme ++ " " ++ signToken SECRET_KEY iat email)) now handler
      = .handled (handler ⟨email, iat, iat + 3600⟩) := by
  simp [runProtected, authenticateToken_scheme_token scheme email iat now hs he hnow]

/-- C10 (witness): a "Basic"-scheme header carrying a valid token is accepted
just like a "Bearer" one. -/
theorem access_guard_ignores_scheme_witness :
    runProtected (some ("Basic " ++ signToken SECRET_KEY 0 "a@x.com")) 0
        (fun c => c.email)
      = .handled "a@x.com" :=
  access_guard_ignores_scheme "Basic" "a@x.com" 0 0 (fun c => c.email)
    (by decide) (by decide) (by omega)

end TokkenAPI
